import Mathlib

/-!
Verification development for the cursor-agent ACP adapter
(repository konsumer/cursor-agent-acp).

The adapter bridges the Agent Client Protocol to the cursor-agent CLI.
The definitions below are a shallow embedding of the TypeScript source:

* `splitNl`, `frameStep`, `feedFrames` embed the line framing of
  `CursorAgent.processOutput` (src/cursor-agent.ts, lines 85-104);
* `JsonVal` / `jsonParse` / `classifyLine` embed the per-line
  JSON-or-plain-text classification inside the same method;
* `stopModel` embeds `CursorAgent.stop` (src/cursor-agent.ts, lines 116-145);
* `Session`, `promptModel`, `cancelModel`, `handleCursorAgentMessage`
  embed the session registry and dispatch of `CursorAcpAgent`
  (src/acp-agent.ts);
* the tool-mapper definitions (`readToolInfo`, `multiEditToolInfo`,
  `toolUpdateFromToolResult`) are modelled from the specification, since
  tools.ts is not part of the provided sources; the unit tests in
  src/tests/acp-agent.test.ts pin their concrete behaviour.

Strings are modelled as `List Char` wherever character-level processing
matters, matching JavaScript string semantics character by character.
-/

namespace CursorAcp

/-! ## JSON values and the JSON parser used by the message classifier -/

/-- A JSON value as produced by `JSON.parse`.  Numeric literals keep their
source lexeme: nothing in the adapter inspects numeric values, only
parse success or failure matters, so this avoids floating-point
semantics while staying faithful to the classification behaviour. -/
inductive JsonVal where
  | null : JsonVal
  | bool (b : Bool) : JsonVal
  | num (lexeme : List Char) : JsonVal
  | str (s : List Char) : JsonVal
  | arr (xs : List JsonVal) : JsonVal
  | obj (fields : List (List Char × JsonVal)) : JsonVal

/-- JSON insignificant whitespace (RFC 8259): space, tab, newline, return. -/
def isJsonWs (c : Char) : Bool :=
  c = ' ' || c = '\t' || c = '\n' || c = '\r'

/-- Drop leading JSON whitespace. -/
def skipWs (s : List Char) : List Char :=
  s.dropWhile isJsonWs

/-- Left brace character, written by code point. -/
def lbrace : Char := Char.ofNat 123

/-- Right brace character, written by code point. -/
def rbrace : Char := Char.ofNat 125

/-- Value of a hexadecimal digit, if the character is one. -/
def hexDigitVal (c : Char) : Option Nat :=
  if '0' ≤ c ∧ c ≤ '9' then some (c.toNat - 48)
  else if 'a' ≤ c ∧ c ≤ 'f' then some (c.toNat - 97 + 10)
  else if 'A' ≤ c ∧ c ≤ 'F' then some (c.toNat - 65 + 10)
  else none

/-- Parse the body of a JSON string literal (after the opening quote),
handling the escape sequences `JSON.parse` accepts and rejecting raw
control characters.  Returns the decoded characters and the input after
the closing quote. -/
def parseStringChars : Nat → List Char → Option (List Char × List Char)
  | 0, _ => none
  | _, [] => none
  | fuel+1, c :: rest =>
    if c = '\"' then some ([], rest)
    else if c = '\\' then
      match rest with
      | [] => none
      | e :: rest2 =>
        if e = '\"' ∨ e = '\\' ∨ e = '/' then
          (parseStringChars fuel rest2).map (fun p => (e :: p.1, p.2))
        else if e = 'b' then
          (parseStringChars fuel rest2).map (fun p => (Char.ofNat 8 :: p.1, p.2))
        else if e = 'f' then
          (parseStringChars fuel rest2).map (fun p => (Char.ofNat 12 :: p.1, p.2))
        else if e = 'n' then
          (parseStringChars fuel rest2).map (fun p => ('\n' :: p.1, p.2))
        else if e = 'r' then
          (parseStringChars fuel rest2).map (fun p => ('\r' :: p.1, p.2))
        else if e = 't' then
          (parseStringChars fuel rest2).map (fun p => ('\t' :: p.1, p.2))
        else if e = 'u' then
          match rest2 with
          | h1 :: h2 :: h3 :: h4 :: rest3 =>
            match hexDigitVal h1, hexDigitVal h2, hexDigitVal h3, hexDigitVal h4 with
            | some v1, some v2, some v3, some v4 =>
              (parseStringChars fuel rest3).map
                (fun p => (Char.ofNat (((v1 * 16 + v2) * 16 + v3) * 16 + v4) :: p.1, p.2))
            | _, _, _, _ => none
          | _ => none
        else none
    else if c.toNat < 32 then none
    else (parseStringChars fuel rest).map (fun p => (c :: p.1, p.2))

/-- Optional fraction part of a JSON number: either absent (empty
lexeme) or a dot followed by at least one digit; `none` marks a
malformed fraction. -/
def numFracPart (s : List Char) : Option (List Char) × List Char :=
  match s with
  | '.' :: r =>
    let ds := r.takeWhile Char.isDigit
    if ds.isEmpty then (none, s)
    else (some ('.' :: ds), r.dropWhile Char.isDigit)
  | _ => (some [], s)

/-- Optional exponent part of a JSON number. -/
def numExpPart (s : List Char) : Option (List Char) × List Char :=
  match s with
  | c :: r =>
    if c = 'e' ∨ c = 'E' then
      let (sg, r2) :=
        match r with
        | '+' :: r3 => (['+'], r3)
        | '-' :: r3 => (['-'], r3)
        | _ => (([] : List Char), r)
      let ds := r2.takeWhile Char.isDigit
      if ds.isEmpty then (none, s)
      else (some (c :: sg ++ ds), r2.dropWhile Char.isDigit)
    else (some [], s)
  | [] => (some [], s)

/-- Parse a JSON numeric literal, returning its lexeme and the rest of
the input.  Follows the RFC 8259 grammar (optional minus, integer part
with no leading zero, optional fraction, optional exponent). -/
def parseNumberLex (s : List Char) : Option (List Char × List Char) :=
  let (sign, s1) :=
    match s with
    | '-' :: r => (['-'], r)
    | _ => (([] : List Char), s)
  match s1 with
  | [] => none
  | c :: r =>
    if c = '0' then
      let (frac, s2) := numFracPart r
      match frac with
      | none => none
      | some fr =>
        let (ex, s3) := numExpPart s2
        match ex with
        | none => none
        | some e => some (sign ++ ['0'] ++ fr ++ e, s3)
    else if c.isDigit then
      let ds := (c :: r).takeWhile Char.isDigit
      let s2 := (c :: r).dropWhile Char.isDigit
      let (frac, s3) := numFracPart s2
      match frac with
      | none => none
      | some fr =>
        let (ex, s4) := numExpPart s3
        match ex with
        | none => none
        | some e => some (sign ++ ds ++ fr ++ e, s4)
    else none

mutual

/-- Fuel-bounded recursive-descent parser for one JSON value, following
what `JSON.parse` accepts.  Returns the value and the unconsumed rest. -/
def parseVal : Nat → List Char → Option (JsonVal × List Char)
  | 0, _ => none
  | fuel+1, s =>
    match skipWs s with
    | [] => none
    | c :: rest =>
      if c = lbrace then
        match skipWs rest with
        | [] => none
        | d :: r2 =>
          if d = rbrace then some (.obj [], r2)
          else
            (parseObjItems fuel (d :: r2)).map (fun p => (.obj p.1, p.2))
      else if c = '[' then
        match skipWs rest with
        | [] => none
        | d :: r2 =>
          if d = ']' then some (.arr [], r2)
          else
            (parseArrItems fuel (d :: r2)).map (fun p => (.arr p.1, p.2))
      else if c = '\"' then
        (parseStringChars (rest.length + 1) rest).map (fun p => (.str p.1, p.2))
      else if ('n' :: 'u' :: 'l' :: 'l' :: []).isPrefixOf (c :: rest) then
        some (.null, (c :: rest).drop 4)
      else if ('t' :: 'r' :: 'u' :: 'e' :: []).isPrefixOf (c :: rest) then
        some (.bool true, (c :: rest).drop 4)
      else if ('f' :: 'a' :: 'l' :: 's' :: 'e' :: []).isPrefixOf (c :: rest) then
        some (.bool false, (c :: rest).drop 5)
      else
        (parseNumberLex (c :: rest)).map (fun p => (.num p.1, p.2))

/-- Parse the comma-separated items of a non-empty JSON array, the
opening bracket already consumed and the next item known to start here. -/
def parseArrItems : Nat → List Char → Option (List JsonVal × List Char)
  | 0, _ => none
  | fuel+1, s =>
    match parseVal fuel s with
    | none => none
    | some (v, r) =>
      match skipWs r with
      | ',' :: r2 =>
        (parseArrItems fuel r2).map (fun p => (v :: p.1, p.2))
      | ']' :: r2 => some ([v], r2)
      | _ => none

/-- Parse the comma-separated members of a non-empty JSON object, the
opening brace already consumed and the next member known to start here. -/
def parseObjItems : Nat → List Char → Option (List (List Char × JsonVal) × List Char)
  | 0, _ => none
  | fuel+1, s =>
    match skipWs s with
    | '\"' :: r =>
      match parseStringChars (r.length + 1) r with
      | none => none
      | some (key, r2) =>
        match skipWs r2 with
        | ':' :: r3 =>
          match parseVal fuel r3 with
          | none => none
          | some (v, r4) =>
            match skipWs r4 with
            | ',' :: r5 =>
              (parseObjItems fuel r5).map (fun p => ((key, v) :: p.1, p.2))
            | d :: r5 =>
              if d = rbrace then some ([(key, v)], r5) else none
            | [] => none
        | _ => none
    | _ => none

end

/-- Embedding of `JSON.parse(line)` as used in `processOutput`: parse
one JSON value and require only whitespace to remain, or fail. -/
def jsonParse (line : List Char) : Option JsonVal :=
  match parseVal (line.length + 1) line with
  | some (v, rest) => if (skipWs rest).isEmpty then some v else none
  | none => none

/-! ## Message classification (src/cursor-agent.ts, lines 89-103) -/

/-- A message emitted by `processOutput` for one complete line: either
the decoded JSON value, passed through unmodified, or the fallback
record `\x7b type: "assistant", content: line \x7d` created when
`JSON.parse` throws; the fallback constructor carries the raw line. -/
inductive EmittedMsg where
  | structured (v : JsonVal) : EmittedMsg
  | fallbackText (line : List Char) : EmittedMsg

/-- Embedding of the try/catch body of `processOutput`: attempt JSON
decoding, fall back to an unstructured assistant-text record. -/
def classifyLine (line : List Char) : EmittedMsg :=
  match jsonParse line with
  | some v => .structured v
  | none => .fallbackText line

/-! ## Line framing (src/cursor-agent.ts, lines 85-104)

`processOutput` splits `this.buffer` on newline, keeps the final
fragment as the new buffer, then emits one message per non-blank line.
-/

/-- Split a character sequence at every newline, exactly like the
JavaScript `string.split("\n")`: always returns at least one (possibly
empty) segment, and no segment contains a newline. -/
def splitNl : List Char → List (List Char)
  | [] => [[]]
  | c :: rest =>
    if c = '\n' then [] :: splitNl rest
    else
      match splitNl rest with
      | [] => [[c]]
      | l :: ls => (c :: l) :: ls

/-- JavaScript `String.prototype.trim` whitespace set (WhiteSpace and
LineTerminator code points). -/
def isJsTrimWs (c : Char) : Bool :=
  let n := c.toNat
  n = 9 || n = 10 || n = 11 || n = 12 || n = 13 || n = 32 || n = 160 || n = 5760 ||
  (8192 ≤ n && n ≤ 8202) || n = 8232 || n = 8233 || n = 8239 || n = 8287 ||
  n = 12288 || n = 65279

/-- A line is blank when `line.trim()` is the empty string, i.e. every
character is JavaScript trim whitespace.  `processOutput` drops such
lines instead of emitting a message for them. -/
def isBlank (l : List Char) : Bool :=
  l.all isJsTrimWs

/-- One call of `processOutput` at the framing level: append the chunk
to the buffer, split on newline, keep the last segment as the new
buffer, and emit the non-blank complete lines in order. -/
def frameStep (buf chunk : List Char) : List (List Char) × List Char :=
  let parts := splitNl (buf ++ chunk)
  (parts.dropLast.filter (fun l => !isBlank l), parts.getLastD [])

/-- One fold step of chunk feeding: run `frameStep` on the buffered
state and append the newly emitted lines. -/
def frameFold (acc : List (List Char) × List Char) (chunk : List Char) :
    List (List Char) × List Char :=
  let r := frameStep acc.2 chunk
  (acc.1 ++ r.1, r.2)

/-- Feed a sequence of chunks through `frameStep` starting from an
empty buffer, accumulating every emitted line. -/
def feedFrames (chunks : List (List Char)) : List (List Char) × List Char :=
  chunks.foldl frameFold ([], [])

/-- The newline-terminated lines of a stream prefix: every segment
before the final (possibly empty) unterminated fragment. -/
def newlineTerminatedLines (s : List Char) : List (List Char) :=
  (splitNl s).dropLast

/-- The unterminated fragment after the last newline of a stream prefix. -/
def trailingFragment (s : List Char) : List Char :=
  (splitNl s).getLastD []

/-! ## Process-session termination (src/cursor-agent.ts, lines 116-145)

`stop()` returns at once when the session is not running; otherwise it
sends SIGTERM and awaits a promise that resolves either on the exit
event or, after a 5000 ms timeout, right after sending SIGKILL.
-/

/-- One time unit of the grace window; the reference code measures it
in milliseconds. -/
def timeUnit : Nat := 1000

/-- The fixed grace window of `stop()` before escalation (5 time units,
5000 in the setTimeout call). -/
def graceTimeout : Nat := 5 * timeUnit

/-- Observable outcome of one `stop()` call: which signals were sent,
when the returned promise resolved, whether the exit event of the
subprocess had already fired by that resolution, and the final fields
of the wrapper object. -/
structure StopOutcome where
  sigterm : Bool
  sigkill : Bool
  resolveTime : Nat
  exitObservedByResolve : Bool
  finalRunning : Bool
  finalHasProcess : Bool
deriving DecidableEq

/-- Embedding of `CursorAgent.stop`.  `isRunning` and `hasProcess` are
the wrapper fields on entry; `exitAfterTerm` is the delay until the
subprocess exit event after SIGTERM is sent (`none` when the subprocess
never exits voluntarily). -/
def stopModel (isRunning hasProcess : Bool) (exitAfterTerm : Option Nat) : StopOutcome :=
  if !isRunning || !hasProcess then
    { sigterm := false, sigkill := false, resolveTime := 0,
      exitObservedByResolve := true,
      finalRunning := isRunning, finalHasProcess := hasProcess }
  else
    match exitAfterTerm with
    | some t =>
      if t < graceTimeout then
        { sigterm := true, sigkill := false, resolveTime := t,
          exitObservedByResolve := true,
          finalRunning := false, finalHasProcess := false }
      else
        { sigterm := true, sigkill := true, resolveTime := graceTimeout,
          exitObservedByResolve := false,
          finalRunning := false, finalHasProcess := false }
    | none =>
      { sigterm := true, sigkill := true, resolveTime := graceTimeout,
        exitObservedByResolve := false,
        finalRunning := false, finalHasProcess := false }

/-! ## Session registry and dispatch (src/acp-agent.ts)

`CursorAcpAgent` keeps `sessions[sessionId] = \x7b cursorAgent,
cancelled, messages \x7d`.  The owned `CursorAgent` is abstracted to its
`running` flag, which decides whether `sendMessage` throws.
-/

/-- One registry entry: the cancelled flag, the running state of the
owned cursor-agent subprocess, and the log of sent message contents. -/
structure Session where
  cancelled : Bool
  running : Bool
  messages : List String
deriving DecidableEq

/-- The session registry, keyed by session id. -/
def Sessions : Type := List (String × Session)

/-- Lookup of `this.sessions[id]`. -/
def lookupSession : List (String × Session) → String → Option Session
  | [], _ => none
  | (k, v) :: rest, id => if k = id then some v else lookupSession rest id

/-- In-place mutation of the session stored under `id`. -/
def setSession : List (String × Session) → String → (Session → Session) → List (String × Session)
  | [], _, _ => []
  | (k, v) :: rest, id, f =>
    if k = id then (k, f v) :: rest else (k, v) :: setSession rest id f

/-- The cancelled flag of the session stored under `id` (false when the
id is unknown). -/
def cancelledFlag (ss : List (String × Session)) (id : String) : Bool :=
  match lookupSession ss id with
  | some s => s.cancelled
  | none => false

/-- The stop reasons a prompt call can return. -/
inductive StopReason where
  | endTurn : StopReason
  | refusal : StopReason
deriving DecidableEq

/-- Embedding of `CursorAcpAgent.prompt` (src/acp-agent.ts, lines
215-242).  An unknown id throws "Session not found" before the
try/catch; otherwise the cancelled flag is cleared, then the translated
prompt is sent: a successful send logs the message and returns
`end_turn`, a failing send (subprocess not running) is caught and
returns `refusal`. -/
def promptModel (ss : List (String × Session)) (id content : String) :
    Except String (List (String × Session) × StopReason) :=
  match lookupSession ss id with
  | none => .error "Session not found"
  | some s =>
    if s.running then
      .ok (setSession ss id
            (fun t => { t with cancelled := false, messages := t.messages ++ [content] }),
          .endTurn)
    else
      .ok (setSession ss id (fun t => { t with cancelled := false }), .refusal)

/-- Embedding of `CursorAcpAgent.cancel` (src/acp-agent.ts, lines
244-252): unknown ids throw "Session not found"; otherwise the
cancelled flag is set. -/
def cancelModel (ss : List (String × Session)) (id : String) :
    Except String (List (String × Session)) :=
  match lookupSession ss id with
  | none => .error "Session not found"
  | some _ => .ok (setSession ss id (fun s => { s with cancelled := true }))

/-- Field lookup in a decoded JSON object, first binding wins. -/
def lookupField (k : List Char) : List (List Char × JsonVal) → Option JsonVal
  | [] => none
  | (k2, v) :: rest => if k2 = k then some v else lookupField k rest

/-- The JavaScript property access `message.content` on an emitted
message: the raw line for the fallback record, the `content` field for
a decoded object (`none` models `undefined`), and `undefined` for any
other decoded value. -/
def contentField : EmittedMsg → Option JsonVal
  | .fallbackText line => some (.str line)
  | .structured (.obj fields) => lookupField ('c' :: 'o' :: 'n' :: 't' :: 'e' :: 'n' :: 't' :: []) fields
  | .structured _ => none

/-- Whether an emitted message is a tool-shaped structured record: a
decoded object whose `type` field is the string "tool_use". -/
def isToolShaped : EmittedMsg → Bool
  | .structured (.obj fields) =>
    match lookupField ('t' :: 'y' :: 'p' :: 'e' :: []) fields with
    | some (.str t) => decide (t = 't' :: 'o' :: 'o' :: 'l' :: '_' :: 'u' :: 's' :: 'e' :: [])
    | _ => false
  | _ => false

/-- The update payloads of an outbound `sessionUpdate`, mirroring the
protocol union the adapter may produce: an agent-message text chunk, a
tool-call report, or a tool-call update.  The chunk carries the value
placed in `content.text` (`none` models `undefined`). -/
inductive SessionUpdate where
  | agentMessageChunk (text : Option JsonVal) : SessionUpdate
  | toolCall (toolName : List Char) : SessionUpdate
  | toolCallUpdate (toolName : List Char) : SessionUpdate

/-- An outbound session update together with its session id. -/
structure SessionNotification where
  sessionId : String
  update : SessionUpdate

/-- Embedding of `CursorAcpAgent.handleCursorAgentMessage`
(src/acp-agent.ts, lines 194-213): drop the message when the session is
unknown or cancelled, otherwise forward it to the client as an
agent-message text chunk whose text is `message.content` — every
message takes this path, tool-shaped or not. -/
def handleCursorAgentMessage (ss : List (String × Session)) (id : String)
    (msg : EmittedMsg) : Option SessionNotification :=
  match lookupSession ss id with
  | none => none
  | some s =>
    if s.cancelled then none
    else some { sessionId := id, update := .agentMessageChunk (contentField msg) }

/-- The session-scoped calls whose state effects matter for the
cancellation claims.  Thrown not-found errors leave the registry
unchanged. -/
inductive AgentOp where
  | promptOp (id content : String) : AgentOp
  | cancelOp (id : String) : AgentOp

/-- Run one call against the registry, keeping the state of a call that
throws. -/
def runOp (ss : List (String × Session)) : AgentOp → List (String × Session)
  | .promptOp id content =>
    match promptModel ss id content with
    | .ok (ss1, _) => ss1
    | .error _ => ss
  | .cancelOp id =>
    match cancelModel ss id with
    | .ok ss1 => ss1
    | .error _ => ss

/-- Run a sequence of calls left to right. -/
def runOps (ss : List (String × Session)) (ops : List AgentOp) : List (String × Session) :=
  ops.foldl runOp ss

/-- Whether a call is a prompt on the given session id. -/
def isPromptOn (id : String) : AgentOp → Bool
  | .promptOp i _ => decide (i = id)
  | .cancelOp _ => false

/-! ## Tool Semantics Mapper (modelled from the spec)

The functions `toolInfoFromToolUse` and `toolUpdateFromToolResult` live
in tools.ts, which is not among the provided sources; only their unit
tests (src/tests/acp-agent.test.ts) and their import site are.  The
definitions below are modelled from the specification (section 4.5),
with the unit tests pinning the concrete outputs.
-/

/-- The canonical action kinds of the descriptor. -/
inductive ToolKind where
  | execute : ToolKind
  | search : ToolKind
  | think : ToolKind
  | edit : ToolKind
  | read : ToolKind
  | fetch : ToolKind
deriving DecidableEq

/-- A reported file location: path plus an optional line number. -/
structure ToolLocation where
  path : String
  line : Option Nat
deriving DecidableEq

/-- A content block of a canonical action descriptor: a text block or a
diff block with optional old text. -/
inductive ToolContent where
  | textBlock (t : String) : ToolContent
  | diffBlock (path : String) (oldText : Option String) (newText : String) : ToolContent
deriving DecidableEq

/-- The canonical `kind/title/content/locations` descriptor produced
for a tool invocation; `locations := none` models a descriptor that
omits the field entirely. -/
structure ToolInfo where
  kind : ToolKind
  title : String
  content : List ToolContent
  locations : Option (List ToolLocation)
deriving DecidableEq

/-- Modelled from the spec: the base title of a read-tool descriptor.
Section 4.5 says the title is a generic "Read File" or, when a path is
present, includes the path; the unit tests pin the disambiguation: the
namespaced variant with an `abs_path` argument titles "Read <path>",
the plain `Read` tool (whose path arrives as `file_path`) titles
"Read File". -/
def readBaseTitle (absPath : Option String) : String :=
  match absPath with
  | some p => "Read " ++ p
  | none => "Read File"

/-- Modelled from the spec: the range suffix of a read-tool title.
Offset and limit combine into a 1-indexed inclusive range when both are
given, a "(1 - limit)" suffix when only the limit is given, and a
"(from line offset+1)" suffix when only the offset is given. -/
def readRangeSuffix (offset limit : Option Nat) : String :=
  match offset, limit with
  | none, none => ""
  | none, some l => " (1 - " ++ toString l ++ ")"
  | some o, some l => " (" ++ toString (o + 1) ++ " - " ++ toString (o + l) ++ ")"
  | some o, none => " (from line " ++ toString (o + 1) ++ ")"

/-- Modelled from the spec: the read-tool branch of
`toolInfoFromToolUse`, taking the `abs_path`, `file_path`, `offset` and
`limit` arguments of the invocation record.  The reported location
always carries the raw 0-indexed offset, defaulting to 0. -/
def readToolInfo (absPath filePath : Option String) (offset limit : Option Nat) : ToolInfo :=
  { kind := .read
    title := readBaseTitle absPath ++ readRangeSuffix offset limit
    content := []
    locations := some [{ path := absPath.getD (filePath.getD ""), line := some (offset.getD 0) }] }

/-- A tool-result record: the error flag and the texts of its content
blocks. -/
structure ToolResultRec where
  isErrorFlag : Bool
  contentTexts : List String
deriving DecidableEq

/-- The incremental update produced for a tool result; `content :=
none` models the empty update object. -/
structure ToolUpdate where
  content : Option (List ToolContent)
deriving DecidableEq

/-- Modelled from the spec: `toolUpdateFromToolResult` (section 4.5,
result direction).  A result whose error flag is unset produces no
additional update; an error-flagged result produces an update carrying
the result text content.  The original invocation descriptor is
consulted but does not change this success/failure asymmetry. -/
def toolUpdateFromToolResult (result : ToolResultRec) (_original : ToolInfo) : ToolUpdate :=
  if result.isErrorFlag then
    { content := some (result.contentTexts.map ToolContent.textBlock) }
  else
    { content := none }

/-- One multi-edit operation: search text, replacement text, and the
replace-all flag. -/
structure EditOp where
  oldStr : String
  newStr : String
  replaceAll : Bool
deriving DecidableEq

/-- Index of the first occurrence of a pattern in a character sequence,
like the JavaScript `indexOf` for a non-empty pattern. -/
def firstOccurIdx (pat : List Char) : List Char → Option Nat
  | [] => if pat.isEmpty then some 0 else none
  | c :: rest =>
    if pat.isPrefixOf (c :: rest) then some 0
    else (firstOccurIdx pat rest).map (· + 1)

/-- Replace the first occurrence of a non-empty pattern, like the
JavaScript `replace` with a string pattern. -/
def replaceFirstL (pat repl : List Char) : List Char → List Char
  | [] => []
  | c :: rest =>
    if pat ≠ [] ∧ pat.isPrefixOf (c :: rest) then repl ++ (c :: rest).drop pat.length
    else c :: replaceFirstL pat repl rest

/-- Replace every occurrence of a non-empty pattern, left to right and
non-overlapping, like the JavaScript `replaceAll`; fuel-bounded by the
input length. -/
def replaceAllAux (pat repl : List Char) : Nat → List Char → List Char
  | _, [] => []
  | 0, s => s
  | fuel+1, c :: rest =>
    if pat ≠ [] ∧ pat.isPrefixOf (c :: rest) then
      repl ++ replaceAllAux pat repl fuel ((c :: rest).drop pat.length)
    else c :: replaceAllAux pat repl fuel rest

/-- Replace every occurrence of a non-empty pattern. -/
def replaceAllL (pat repl s : List Char) : List Char :=
  replaceAllAux pat repl s.length s

/-- Number of newlines in a character sequence. -/
def countNl (s : List Char) : Nat :=
  (s.filter (fun c => c = '\n')).length

/-- Modelled from the spec: the 0-indexed line at which the first
occurrence of the search text begins in the current text (0 when the
search text does not occur, a case the spec leaves unspecified). -/
def editLocLine (cur pat : List Char) : Nat :=
  match firstOccurIdx pat cur with
  | some i => countNl (cur.take i)
  | none => 0

/-- Modelled from the spec: apply the ordered multi-edit operations to
the current text, returning the final text and, per operation, the
0-indexed line of its occurrence computed against the text state at the
time that operation is applied. -/
def applyEditOps : List Char → List EditOp → List Char × List Nat
  | cur, [] => (cur, [])
  | cur, op :: rest =>
    let line := editLocLine cur op.oldStr.toList
    let next :=
      if op.replaceAll then replaceAllL op.oldStr.toList op.newStr.toList cur
      else replaceFirstL op.oldStr.toList op.newStr.toList cur
    let r := applyEditOps next rest
    (r.1, line :: r.2)

/-- Modelled from the spec: the multi-edit branch of
`toolInfoFromToolUse` for a path whose original text is cached in the
File-Content Cache.  It accumulates a final new text, synthesizes one
diff against the original cached text, and contributes one location per
operation. -/
def multiEditToolInfo (path : String) (original : String) (edits : List EditOp) : ToolInfo :=
  { kind := .edit
    title := "Edit " ++ path
    content := [.diffBlock path (some original) (applyEditOps original.toList edits).1.asString]
    locations := some ((applyEditOps original.toList edits).2.map
      (fun n => { path := path, line := some n })) }

/-! ## Concrete inputs used by the theorems below -/

/-- Prepend a segment onto the head segment of a split result; used to
state how `splitNl` distributes over append. -/
def consHead (x : List Char) : List (List Char) → List (List Char)
  | [] => [x]
  | y :: ys => (x ++ y) :: ys

/-- The file path of the multi-edit unit test. -/
def cfgPath : String := "/Users/test/project/config.json"

/-- The cached original text of the multi-edit unit test: the example
JSON object pretty-printed with four-space indentation. -/
def cfgOrig : String :=
  "\x7b\n    \"version\": 1,\n    \"filler\": \"filler\",\n    \"enabled\": false\n\x7d"

/-- The two ordered replacement operations of the multi-edit unit test. -/
def cfgEdits : List EditOp :=
  [ { oldStr := "version\": 1", newStr := "version\": 2", replaceAll := false },
    { oldStr := "enabled\": false", newStr := "enabled\": true", replaceAll := true } ]

/-- The expected final text after both replacements. -/
def cfgNew : String :=
  "\x7b\n    \"version\": 2,\n    \"filler\": \"filler\",\n    \"enabled\": true\n\x7d"

/-- A registry holding one live, non-cancelled session under id "s". -/
def exSessions : List (String × Session) :=
  [("s", { cancelled := false, running := true, messages := [] })]

/-- A registry holding one already-cancelled live session under id "s". -/
def exSessionsCancelled : List (String × Session) :=
  [("s", { cancelled := true, running := true, messages := [] })]

/-- A registry holding one session under id "s" whose subprocess is not
running, so that sending a prompt to it throws. -/
def exSessionsDead : List (String × Session) :=
  [("s", { cancelled := false, running := false, messages := [] })]

/-- A tool-shaped structured record as the subprocess would emit it on
one line: a decoded JSON object with type "tool_use" and a tool name,
but no "content" field. -/
def toolUseRecordMsg : EmittedMsg :=
  .structured (.obj
    [ (('t' : Char) :: 'y' :: 'p' :: 'e' :: [],
        .str ('t' :: 'o' :: 'o' :: 'l' :: '_' :: 'u' :: 's' :: 'e' :: [])),
      (('n' : Char) :: 'a' :: 'm' :: 'e' :: [],
        .str ('R' :: 'e' :: 'a' :: 'd' :: [])) ])

/-! ## Support lemmas for the line framer -/

/-- `splitNl` always yields at least one segment, like the JavaScript
`split`. -/
theorem splitNl_ne_nil (s : List Char) : splitNl s ≠ [] := by
  cases s with
  | nil => simp [splitNl]
  | cons c rest =>
    simp only [splitNl]
    split
    · simp
    · split <;> simp

/-- Unfolding lemma for `splitNl` on a cons, with the inner match
expressed through `headD` and `tail`. -/
theorem splitNl_cons (c : Char) (rest : List Char) :
    splitNl (c :: rest) =
      if c = '\n' then [] :: splitNl rest
      else (c :: (splitNl rest).headD []) :: (splitNl rest).tail := by
  simp only [splitNl]
  split
  · rfl
  · cases h : splitNl rest with
    | nil => exact absurd h (splitNl_ne_nil rest)
    | cons l ls => simp

/-- A newline-free text splits into the single segment it is. -/
theorem splitNl_eq_single (s : List Char) (h : '\n' ∉ s) : splitNl s = [s] := by
  induction s with
  | nil => rfl
  | cons c rest ih =>
    rw [splitNl_cons]
    have hc : ¬ c = '\n' := fun e => h (by rw [e]; exact List.mem_cons_self _ _)
    have hr : '\n' ∉ rest := fun m => h (List.mem_cons_of_mem _ m)
    rw [if_neg hc, ih hr]
    rfl

/-- No segment produced by `splitNl` contains a newline. -/
theorem mem_splitNl_no_nl (s : List Char) : ∀ l ∈ splitNl s, '\n' ∉ l := by
  induction s with
  | nil => intro l hl; simp [splitNl] at hl; simp [hl]
  | cons c rest ih =>
    intro l hl
    rw [splitNl_cons] at hl
    by_cases hc : c = '\n'
    · rw [if_pos hc] at hl
      rcases List.mem_cons.mp hl with h | h
      · simp [h]
      · exact ih l h
    · rw [if_neg hc] at hl
      cases h : splitNl rest with
      | nil => exact absurd h (splitNl_ne_nil rest)
      | cons m ms =>
        rw [h] at hl
        rcases List.mem_cons.mp hl with h1 | h1
        · subst h1
          intro hmem
          rcases List.mem_cons.mp hmem with h2 | h2
          · exact hc h2.symm
          · exact ih m (by rw [h]; exact List.mem_cons_self _ _) h2
        · exact ih l (by rw [h]; exact List.mem_cons_of_mem _ h1)

/-- The default-carrying last element of a non-empty list is a member. -/
theorem getLastD_cons_mem (x : List Char) (xs : List (List Char)) (d : List Char) :
    (x :: xs).getLastD d ∈ x :: xs := by
  induction xs generalizing x d with
  | nil => simp [List.getLastD_cons]
  | cons n ns ih =>
    rw [List.getLastD_cons]
    exact List.mem_cons_of_mem _ (ih n x)

/-- The retained fragment of any split result is newline-free. -/
theorem splitNl_getLastD_no_nl (s : List Char) : '\n' ∉ (splitNl s).getLastD [] := by
  cases h : splitNl s with
  | nil => exact absurd h (splitNl_ne_nil s)
  | cons m ms =>
    exact mem_splitNl_no_nl s _ (by rw [h]; exact getLastD_cons_mem m ms [])

/-- How `splitNl` distributes over concatenation: all fully terminated
segments of the first part, then its trailing fragment merged onto the
first segment of the second part. -/
theorem splitNl_append (a b : List Char) :
    splitNl (a ++ b) =
      (splitNl a).dropLast ++ consHead ((splitNl a).getLastD []) (splitNl b) := by
  induction a with
  | nil =>
    cases h : splitNl b with
    | nil => exact absurd h (splitNl_ne_nil b)
    | cons m ms => simp [splitNl, consHead, h]
  | cons c a' ih =>
    rw [List.cons_append, splitNl_cons, splitNl_cons]
    by_cases hc : c = '\n'
    · rw [if_pos hc, if_pos hc, ih]
      cases h : splitNl a' with
      | nil => exact absurd h (splitNl_ne_nil a')
      | cons m ms =>
        simp only [h, List.dropLast_cons₂, List.getLastD_cons, List.cons_append]
    · rw [if_neg hc, if_neg hc, ih]
      cases h : splitNl a' with
      | nil => exact absurd h (splitNl_ne_nil a')
      | cons m ms =>
        cases hb : splitNl b with
        | nil => exact absurd hb (splitNl_ne_nil b)
        | cons n ns =>
          cases ms with
          | nil => simp [consHead, List.getLastD_cons]
          | cons m2 ms2 =>
            simp only [consHead, List.headD_cons, List.tail_cons, List.dropLast_cons₂,
              List.getLastD_cons, List.cons_append]

/-- Appending in front of a non-empty list does not change its
default-carrying last element. -/
theorem getLastD_append_cons (A : List (List Char)) (y : List Char) (ys : List (List Char)) :
    ∀ d, (A ++ y :: ys).getLastD d = (y :: ys).getLastD d := by
  induction A with
  | nil => intro d; rfl
  | cons x xs ihA =>
    intro d
    rw [List.cons_append, List.getLastD_cons, ihA x, List.getLastD_cons,
      List.getLastD_cons]

/-- Fold invariant of chunk feeding: starting from a newline-free
buffer, the fold emits exactly the non-blank terminated lines of the
concatenated stream and retains its trailing fragment. -/
theorem frameFold_invariant (chunks : List (List Char)) :
    ∀ (buf : List Char) (acc : List (List Char)), '\n' ∉ buf →
      chunks.foldl frameFold (acc, buf) =
        (acc ++ (newlineTerminatedLines (buf ++ chunks.flatten)).filter (fun l => !isBlank l),
         trailingFragment (buf ++ chunks.flatten)) := by
  induction chunks with
  | nil =>
    intro buf acc hbuf
    simp only [List.foldl_nil, List.flatten_nil, List.append_nil, newlineTerminatedLines,
      trailingFragment]
    rw [splitNl_eq_single buf hbuf]
    simp
  | cons c rest ih =>
    intro buf acc hbuf
    have hb1 : '\n' ∉ (splitNl (buf ++ c)).getLastD [] := splitNl_getLastD_no_nl (buf ++ c)
    have step : frameFold (acc, buf) c =
        (acc ++ ((splitNl (buf ++ c)).dropLast.filter (fun l => !isBlank l)),
         (splitNl (buf ++ c)).getLastD []) := rfl
    rw [List.foldl_cons, step, ih _ _ hb1]
    have key2 : splitNl ((splitNl (buf ++ c)).getLastD [] ++ rest.flatten)
        = consHead ((splitNl (buf ++ c)).getLastD []) (splitNl rest.flatten) := by
      rw [splitNl_append, splitNl_eq_single _ hb1]
      rfl
    have key1 : splitNl (buf ++ (c :: rest).flatten)
        = (splitNl (buf ++ c)).dropLast
            ++ splitNl ((splitNl (buf ++ c)).getLastD [] ++ rest.flatten) := by
      rw [List.flatten_cons, ← List.append_assoc, splitNl_append (buf ++ c) rest.flatten, key2]
    cases hB : splitNl ((splitNl (buf ++ c)).getLastD [] ++ rest.flatten) with
    | nil => exact absurd hB (splitNl_ne_nil _)
    | cons y ys =>
      simp only [newlineTerminatedLines, trailingFragment]
      rw [key1, hB, List.dropLast_append_of_ne_nil _ (List.cons_ne_nil y ys),
        List.filter_append, ← List.append_assoc, getLastD_append_cons]

/-! ## Claim C3: line framing -/

/-- Claim C3, counterexample: the concatenated stream "a\n\nb" contains
two newline-terminated lines ("a" and the empty line) followed by the
fragment "b", yet the framer emits only one line, because blank lines
are discarded rather than emitted; the claimed "exactly N lines, each
equal to the corresponding input segment" is therefore false. -/
theorem framer_blank_line_dropped :
    (newlineTerminatedLines ("a\n\nb".toList)).length = 2 ∧
    newlineTerminatedLines ("a\n\nb".toList) = ["a".toList, []] ∧
    (feedFrames [("a\n\nb".toList)]).1 = ["a".toList] ∧
    (feedFrames [("a\n\nb".toList)]).1.length = 1 ∧
    (feedFrames [("a\n\nb".toList)]).2 = "b".toList := by
  refine ⟨rfl, rfl, rfl, rfl, rfl⟩

/-- Claim C3 (amended): for every sequence of byte chunks, the framer
emits, in order, exactly those of the newline-terminated lines of the
concatenation that are non-blank after trimming (each with its newline
terminator removed; blank lines are discarded), and retains exactly the
trailing unterminated fragment in its buffer. -/
theorem framer_emits_nonblank_terminated_lines (chunks : List (List Char)) :
    feedFrames chunks =
      ((newlineTerminatedLines chunks.flatten).filter (fun l => !isBlank l),
       trailingFragment chunks.flatten) := by
  have h := frameFold_invariant chunks [] [] (by simp)
  simpa [feedFrames] using h

/-! ## Claim C4: message classification -/

/-- Claim C4: every complete line handed to the classifier is either
decoded as JSON and emitted unmodified, or emitted as a fallback record
tagged as unstructured assistant text whose content is the raw line; no
line is dropped. -/
theorem classifier_faithful_or_fallback (line : List Char) :
    (∀ v, jsonParse line = some v → classifyLine line = .structured v) ∧
    (jsonParse line = none → classifyLine line = .fallbackText line) := by
  constructor
  · intro v hv
    simp [classifyLine, hv]
  · intro hv
    simp [classifyLine, hv]

/-- Witness for claim C4 at concrete inputs: a structured tool-use line
decodes and is passed through, and a plain-text line falls back to an
assistant-text record carrying the raw line. -/
theorem classifier_faithful_or_fallback_witness :
    jsonParse ("\x7b\"type\":\"tool_use\"\x7d".toList) =
      some (.obj [("type".toList, .str ("tool_use".toList))]) ∧
    classifyLine ("\x7b\"type\":\"tool_use\"\x7d".toList) =
      .structured (.obj [("type".toList, .str ("tool_use".toList))]) ∧
    jsonParse ("hello world".toList) = none ∧
    classifyLine ("hello world".toList) = .fallbackText ("hello world".toList) := by
  refine ⟨rfl, ?_, rfl, ?_⟩
  · exact (classifier_faithful_or_fallback ("\x7b\"type\":\"tool_use\"\x7d".toList)).1 _ rfl
  · exact (classifier_faithful_or_fallback ("hello world".toList)).2 rfl

/-! ## Support lemmas for the session registry -/

/-- Looking up the updated id yields the updated session. -/
theorem lookupSession_setSession_same (ss : List (String × Session)) (id : String)
    (f : Session → Session) :
    lookupSession (setSession ss id f) id = (lookupSession ss id).map f := by
  induction ss with
  | nil => rfl
  | cons kv rest ih =>
    obtain ⟨k, v⟩ := kv
    by_cases hk : k = id
    · simp [setSession, lookupSession, hk]
    · simp [setSession, lookupSession, hk, ih]

/-- Updating one id leaves every other lookup unchanged. -/
theorem lookupSession_setSession_other (ss : List (String × Session)) (i id : String)
    (f : Session → Session) (h : i ≠ id) :
    lookupSession (setSession ss i f) id = lookupSession ss id := by
  induction ss with
  | nil => rfl
  | cons kv rest ih =>
    obtain ⟨k, v⟩ := kv
    by_cases hk : k = i
    · subst hk
      simp [setSession, lookupSession, h]
    · by_cases hd : k = id
      · subst hd
        simp [setSession, lookupSession, hk]
      · simp [setSession, lookupSession, hk, hd, ih]

/-- One non-prompt call (on this id) keeps a set cancelled flag set. -/
theorem cancelled_preserved_step (ss : List (String × Session)) (id : String) (op : AgentOp)
    (h : cancelledFlag ss id = true) (hop : isPromptOn id op = false) :
    cancelledFlag (runOp ss op) id = true := by
  cases op with
  | promptOp i c =>
    have hne : i ≠ id := by
      intro e
      rw [isPromptOn, decide_eq_false_iff_not] at hop
      exact hop e
    rw [runOp]
    cases hl : lookupSession ss i with
    | none => simp [promptModel, hl, h]
    | some s =>
      cases hrun : s.running with
      | false =>
        simp only [promptModel, hl, hrun, Bool.false_eq_true, if_false]
        rw [cancelledFlag, lookupSession_setSession_other ss i id _ hne]
        exact h
      | true =>
        simp only [promptModel, hl, hrun, if_true]
        rw [cancelledFlag, lookupSession_setSession_other ss i id _ hne]
        exact h
  | cancelOp i =>
    rw [runOp]
    cases hl : lookupSession ss i with
    | none => simp [cancelModel, hl, h]
    | some s =>
      simp only [cancelModel, hl]
      by_cases hi : i = id
      · subst hi
        rw [cancelledFlag, lookupSession_setSession_same, hl]
        rfl
      · rw [cancelledFlag, lookupSession_setSession_other ss i id _ hi]
        exact h

/-! ## Claim C2: cancellation -/

/-- Claim C2, counterexample: calling `cancel("s")` does set the flag,
but a later `prompt("s", ...)` on the same session clears it again and
the next subprocess message is forwarded to the client — so the flag
does not stay true for the remaining session lifetime regardless of
later calls. -/
theorem cancel_not_monotonic_after_prompt :
    cancelledFlag (runOps exSessions [.cancelOp "s"]) "s" = true ∧
    cancelledFlag (runOps exSessions [.cancelOp "s", .promptOp "s" "hi"]) "s" = false ∧
    handleCursorAgentMessage (runOps exSessions [.cancelOp "s", .promptOp "s" "hi"]) "s"
        (.fallbackText ("ok".toList)) =
      some { sessionId := "s", update := .agentMessageChunk (some (.str ("ok".toList))) } := by
  refine ⟨rfl, rfl, rfl⟩

/-- Claim C2 (amended): once `cancel(id)` has set the cancelled flag,
it stays true and no further outbound update is forwarded for that id
across any sequence of later calls that does not include a `prompt` on
that same id — a subsequent prompt on the id, however, clears the flag
and re-enables forwarding. -/
theorem cancel_suppresses_until_prompt (ops : List AgentOp) :
    ∀ (ss : List (String × Session)) (id : String),
      cancelledFlag ss id = true →
      (∀ op ∈ ops, isPromptOn id op = false) →
      cancelledFlag (runOps ss ops) id = true ∧
      ∀ m, handleCursorAgentMessage (runOps ss ops) id m = none := by
  have hflag : ∀ (ss : List (String × Session)) (id : String),
      cancelledFlag ss id = true →
      (∀ op ∈ ops, isPromptOn id op = false) →
      cancelledFlag (runOps ss ops) id = true := by
    induction ops with
    | nil => intro ss id h _; exact h
    | cons op rest ih =>
      intro ss id h hops
      rw [runOps, List.foldl_cons]
      exact ih (runOp ss op) id
        (cancelled_preserved_step ss id op h (hops op (List.mem_cons_self _ _)))
        (fun o ho => hops o (List.mem_cons_of_mem _ ho))
  intro ss id h hops
  refine ⟨hflag ss id h hops, ?_⟩
  intro m
  have hf := hflag ss id h hops
  rw [handleCursorAgentMessage]
  rw [cancelledFlag] at hf
  cases hl : lookupSession (runOps ss ops) id with
  | none => rfl
  | some s =>
    rw [hl] at hf
    have hs : s.cancelled = true := hf
    simp [hs]

/-- Witness for claim C2 (amended) at a concrete trace: after cancel,
a cancel repeat and a prompt on a different session leave the flag set
and every message suppressed. -/
theorem cancel_suppresses_until_prompt_witness :
    cancelledFlag exSessionsCancelled "s" = true ∧
    (∀ op ∈ ([.cancelOp "s", .promptOp "t" "x"] : List AgentOp), isPromptOn "s" op = false) ∧
    (cancelledFlag (runOps exSessionsCancelled [.cancelOp "s", .promptOp "t" "x"]) "s" = true ∧
     ∀ m, handleCursorAgentMessage
        (runOps exSessionsCancelled [.cancelOp "s", .promptOp "t" "x"]) "s" m = none) := by
  refine ⟨rfl, ?_, cancel_suppresses_until_prompt _ _ _ rfl ?_⟩ <;> decide

/-- Evaluation of `promptModel` when the session exists. -/
theorem promptModel_eq_some (ss : List (String × Session)) (id c : String) (s : Session)
    (h : lookupSession ss id = some s) :
    promptModel ss id c =
      if s.running then
        .ok (setSession ss id
              (fun t => { t with cancelled := false, messages := t.messages ++ [c] }),
            .endTurn)
      else
        .ok (setSession ss id (fun t => { t with cancelled := false }), .refusal) := by
  unfold promptModel
  rw [h]

/-! ## Claim C10: prompt clears the cancelled flag -/

/-- Claim C10: for every session id present in the registry, a prompt
call clears that session's cancelled flag — whether the send succeeds
or fails — so cancellation only suppresses forwarding until the next
prompt on the same session, after which outbound updates are forwarded
again. -/
theorem prompt_resets_cancelled (ss : List (String × Session)) (id c : String)
    (s : Session) (h : lookupSession ss id = some s) :
    ∃ ss1 r, promptModel ss id c = .ok (ss1, r) ∧
      cancelledFlag ss1 id = false ∧
      ∀ m, handleCursorAgentMessage ss1 id m =
        some { sessionId := id, update := .agentMessageChunk (contentField m) } := by
  rw [promptModel_eq_some ss id c s h]
  cases hrun : s.running with
  | false =>
    refine ⟨_, _, rfl, ?_, ?_⟩
    · rw [cancelledFlag, lookupSession_setSession_same, h]
      rfl
    · intro m
      rw [handleCursorAgentMessage, lookupSession_setSession_same, h]
      rfl
  | true =>
    refine ⟨_, _, rfl, ?_, ?_⟩
    · rw [cancelledFlag, lookupSession_setSession_same, h]
      rfl
    · intro m
      rw [handleCursorAgentMessage, lookupSession_setSession_same, h]
      rfl

/-- Witness for claim C10: prompting the already-cancelled session "s"
yields a state whose flag is false and whose messages are forwarded
again. -/
theorem prompt_resets_cancelled_witness :
    lookupSession exSessionsCancelled "s" =
      some { cancelled := true, running := true, messages := [] } ∧
    (∃ ss1 r, promptModel exSessionsCancelled "s" "again" = .ok (ss1, r) ∧
      cancelledFlag ss1 "s" = false ∧
      ∀ m, handleCursorAgentMessage ss1 "s" m =
        some { sessionId := "s", update := .agentMessageChunk (contentField m) }) :=
  ⟨rfl, prompt_resets_cancelled exSessionsCancelled "s" "again" _ rfl⟩

/-! ## Claim C9: prompt failure surfacing -/

/-- Claim C9, counterexample: a prompt on an unknown session id does
not surface as a refusal stop-reason outcome; it propagates the thrown
"Session not found" error instead (the throw happens before the
try/catch that produces refusals). -/
theorem prompt_unknown_session_throws :
    promptModel [] "missing" "hi" = .error "Session not found" ∧
    (promptModel [] "missing" "hi").isOk = false := by
  refine ⟨rfl, rfl⟩

/-- Claim C9 (amended): failures occurring after a successful session
lookup surface as a refusal stop-reason outcome rather than a raw
exception, while an unknown session id on a session-scoped call
(prompt or cancel) is reported as a not-found error, never silently
ignored. -/
theorem prompt_and_cancel_failure_modes (ss : List (String × Session)) (id c : String) :
    (lookupSession ss id = none → promptModel ss id c = .error "Session not found") ∧
    (lookupSession ss id = none → cancelModel ss id = .error "Session not found") ∧
    (∀ s, lookupSession ss id = some s → s.running = false →
      promptModel ss id c =
        .ok (setSession ss id (fun t => { t with cancelled := false }), .refusal)) ∧
    (∀ s, lookupSession ss id = some s → s.running = true →
      promptModel ss id c =
        .ok (setSession ss id
              (fun t => { t with cancelled := false, messages := t.messages ++ [c] }),
            .endTurn)) := by
  refine ⟨?_, ?_, ?_, ?_⟩
  · intro h
    rw [promptModel, h]
  · intro h
    rw [cancelModel, h]
  · intro s h hrun
    rw [promptModel_eq_some ss id c s h, hrun]
    rfl
  · intro s h hrun
    rw [promptModel_eq_some ss id c s h, hrun]
    rfl

/-- Witness for claim C9 (amended): a session whose subprocess is dead
yields a refusal outcome, not an exception. -/
theorem prompt_and_cancel_failure_modes_witness :
    promptModel exSessionsDead "s" "hi" =
      .ok ([("s", { cancelled := false, running := false, messages := [] })], .refusal) :=
  (prompt_and_cancel_failure_modes exSessionsDead "s" "hi").2.2.1
    { cancelled := false, running := false, messages := [] } rfl rfl

/-! ## Claim C1: tool-shaped records in the dispatch path -/

/-- Claim C1 (code-bug evidence): a tool-shaped structured record
arriving for a live, non-cancelled session is forwarded to the client
as a plain agent-message text chunk (here with an undefined text, since
the record has no content field), never as a tool-call report: the
forwarding path of `handleCursorAgentMessage` does not invoke the tool
semantics mapper. -/
theorem tool_shaped_record_forwarded_as_text_chunk :
    isToolShaped toolUseRecordMsg = true ∧
    handleCursorAgentMessage exSessions "s" toolUseRecordMsg =
      some { sessionId := "s", update := .agentMessageChunk none } := by
  refine ⟨rfl, rfl⟩

/-! ## Claim C5: stop() termination behaviour -/

/-- Claim C5, counterexample: for a running session whose subprocess
never exits after SIGTERM, `stop()` escalates to SIGKILL at the grace
timeout and resolves at that same instant, with the subprocess exit not
yet observed — refuting "resolves once the subprocess has actually
exited" in the escalation branch. -/
theorem stop_resolves_before_exit_on_escalation :
    (stopModel true true none).sigterm = true ∧
    (stopModel true true none).sigkill = true ∧
    (stopModel true true none).resolveTime = graceTimeout ∧
    (stopModel true true none).exitObservedByResolve = false := by
  refine ⟨rfl, rfl, rfl, rfl⟩

/-- Claim C5 (amended): `stop()` on an already-stopped session is a
signal-free immediate no-op; on a running session it sends a
termination signal and races it against the 5-time-unit grace window:
a subprocess exit inside the window resolves the call at the exit with
no kill signal, otherwise an unconditional kill signal is sent at the
window boundary and the call resolves right then, without waiting to
observe the exit; in every case the call resolves no later than the
grace timeout, so it never hangs. -/
theorem stop_grace_then_kill (r p : Bool) (e : Option Nat) :
    (r = false ∨ p = false →
      stopModel r p e =
        { sigterm := false, sigkill := false, resolveTime := 0,
          exitObservedByResolve := true, finalRunning := r, finalHasProcess := p }) ∧
    (r = true → p = true → (stopModel r p e).sigterm = true) ∧
    (stopModel r p e).resolveTime ≤ graceTimeout ∧
    (∀ t, r = true → p = true → e = some t → t < graceTimeout →
      stopModel r p e =
        { sigterm := true, sigkill := false, resolveTime := t,
          exitObservedByResolve := true, finalRunning := false, finalHasProcess := false }) ∧
    (r = true → p = true → (∀ t, e = some t → graceTimeout ≤ t) →
      stopModel r p e =
        { sigterm := true, sigkill := true, resolveTime := graceTimeout,
          exitObservedByResolve := false, finalRunning := false, finalHasProcess := false }) := by
  refine ⟨?_, ?_, ?_, ?_, ?_⟩
  · intro h
    rcases h with h | h <;> subst h <;> simp [stopModel]
  · intro hr hp
    subst hr
    subst hp
    cases e with
    | none => rfl
    | some t => by_cases ht : t < graceTimeout <;> simp [stopModel, ht]
  · cases r with
    | false => simp [stopModel]
    | true =>
      cases p with
      | false => simp [stopModel]
      | true =>
        cases e with
        | none => simp [stopModel]
        | some t =>
          by_cases ht : t < graceTimeout
          · simp only [stopModel, Bool.not_true, Bool.or_self, Bool.false_eq_true,
              if_false, if_pos ht]
            omega
          · simp [stopModel, ht]
  · intro t hr hp he ht
    subst hr
    subst hp
    subst he
    simp [stopModel, ht]
  · intro hr hp hall
    subst hr
    subst hp
    cases e with
    | none => rfl
    | some t =>
      have hge : graceTimeout ≤ t := hall t rfl
      simp [stopModel, show ¬ t < graceTimeout by omega]

/-- Witness for claim C5 (amended): a subprocess exiting 3 units after
SIGTERM resolves the call gracefully, and stopping a non-running
session is a no-op. -/
theorem stop_grace_then_kill_witness :
    stopModel true true (some 3) =
      { sigterm := true, sigkill := false, resolveTime := 3,
        exitObservedByResolve := true, finalRunning := false, finalHasProcess := false } ∧
    stopModel false true none =
      { sigterm := false, sigkill := false, resolveTime := 0,
        exitObservedByResolve := true, finalRunning := false, finalHasProcess := true } :=
  ⟨(stop_grace_then_kill true true (some 3)).2.2.2.1 3 rfl rfl rfl (by decide),
   (stop_grace_then_kill false true none).1 (Or.inl rfl)⟩

/-! ## Claim C6: read-tool title and location formatting -/

/-- Claim C6, counterexample: a read invocation that carries a path (the
namespaced abs_path form) and neither offset nor limit is titled with
the path, not with the generic "Read File" the claim asserts for every
read invocation with a path. -/
theorem read_with_path_not_generic_title :
    (readToolInfo (some "/Users/test/project/data.json") none none none).title =
      "Read /Users/test/project/data.json" ∧
    (readToolInfo (some "/Users/test/project/data.json") none none none).title ≠
      "Read File" := by
  refine ⟨rfl, by decide⟩

/-- Claim C6 (amended): with no offset and no limit the title is the
bare base title — "Read File" when the invocation carries no abs_path
(the generic form, as for the plain Read tool), "Read path" when it
does — and the range suffixes are: "(1 - limit)" for limit only,
"(offset+1 - offset+limit)" for both, "(from line offset+1)" for
offset only; the reported location always carries the raw 0-indexed
offset, defaulting to 0. -/
theorem read_title_and_location_rules :
    (readToolInfo (some "/Users/test/project/data.json") none none none).title =
      "Read /Users/test/project/data.json" ∧
    (readToolInfo none (some "/Users/test/project/readme.md") none none).title =
      "Read File" ∧
    (readToolInfo (some "/Users/test/project/large.txt") none none (some 100)).title =
      "Read /Users/test/project/large.txt (1 - 100)" ∧
    (readToolInfo (some "/Users/test/project/large.txt") none (some 50) (some 100)).title =
      "Read /Users/test/project/large.txt (51 - 150)" ∧
    (readToolInfo (some "/Users/test/project/large.txt") none (some 200) none).title =
      "Read /Users/test/project/large.txt (from line 201)" ∧
    (∀ ap fp o l, (readToolInfo ap fp o l).title = readBaseTitle ap ++ readRangeSuffix o l) ∧
    (∀ ap fp o l, (readToolInfo ap fp o l).locations =
      some [{ path := ap.getD (fp.getD ""), line := some (o.getD 0) }]) := by
  refine ⟨rfl, rfl, rfl, rfl, rfl, fun ap fp o l => rfl, fun ap fp o l => rfl⟩

/-! ## Claim C7: tool-result reconciliation -/

/-- Claim C7: reconciling a tool result against its original invocation
descriptor produces the empty update when the error flag is unset, and
an update carrying exactly the result text content when it is set. -/
theorem tool_result_reconciliation (res : ToolResultRec) (info : ToolInfo) :
    (res.isErrorFlag = false → toolUpdateFromToolResult res info = { content := none }) ∧
    (res.isErrorFlag = true → toolUpdateFromToolResult res info =
      { content := some (res.contentTexts.map ToolContent.textBlock) }) := by
  constructor <;> intro h <;> simp [toolUpdateFromToolResult, h]

/-- Witness for claim C7 at the unit-test inputs: a non-error result on
an edit invocation yields the empty update, an error-flagged result
yields an update carrying the result text. -/
theorem tool_result_reconciliation_witness :
    toolUpdateFromToolResult { isErrorFlag := false, contentTexts := ["not valid json"] }
        (multiEditToolInfo "/Users/test/project/test.txt" "old" []) = { content := none } ∧
    toolUpdateFromToolResult { isErrorFlag := true, contentTexts := ["Failed to find old text"] }
        (multiEditToolInfo "/Users/test/project/test.txt" "old" []) =
      { content := some [.textBlock "Failed to find old text"] } :=
  ⟨(tool_result_reconciliation _ _).1 rfl, (tool_result_reconciliation _ _).2 rfl⟩

/-! ## Claim C8: multi-edit diff and locations -/

/-- Each multi-edit operation contributes exactly one location. -/
theorem applyEditOps_locations_length (es : List EditOp) :
    ∀ cur, (applyEditOps cur es).2.length = es.length := by
  induction es with
  | nil => intro cur; rfl
  | cons op rest ih =>
    intro cur
    simp [applyEditOps, ih]

/-- Claim C8: a multi-edit over a cached original applies its ordered
operations sequentially, yields one diff from the original cached text
to the final text, and contributes one location per operation whose
line is computed against the progressively-updated text; at the unit
test example the two locations are the 0-indexed lines 1 (the version
field) and 3 (the enabled field). -/
theorem multi_edit_sequential_diff :
    multiEditToolInfo cfgPath cfgOrig cfgEdits =
      { kind := .edit
        title := "Edit /Users/test/project/config.json"
        content := [.diffBlock cfgPath (some cfgOrig) cfgNew]
        locations := some [{ path := cfgPath, line := some 1 },
                           { path := cfgPath, line := some 3 }] } ∧
    (∀ p orig es, (multiEditToolInfo p orig es).content =
      [.diffBlock p (some orig) (applyEditOps orig.toList es).1.asString]) ∧
    (∀ p orig es, ((multiEditToolInfo p orig es).locations.getD []).length = es.length) := by
  refine ⟨by decide, fun p orig es => rfl, fun p orig es => ?_⟩
  simp [multiEditToolInfo, applyEditOps_locations_length]

end CursorAcp
